import Mathlib

/-
Verification development for the routing repository
(src/tcp_connections.rs, src/node_interface.rs, src/client_interface.rs).

The transport in tcp_connections.rs is embedded shallowly: the wire of one
connection is the list of CBOR frames written by the sender, the background
decode loop of upgrade_reader is a recursive function over that list, and
the consumer side of the bchannel is modelled by an optional capacity (how
many further sends into the channel will succeed before the receiver is
dropped).  Fallible operations of the operating system (bind, try_clone,
accept) are oracles passed in as explicit arguments.
-/

namespace Routing

/-- Opaque fixed-width identifier (the name_type module, outside src): only
equality is used by this core. -/
structure NameType where
  id : Nat
deriving DecidableEq

/-- Opaque content-addressed value (the data module, outside src). -/
structure Data where
  id : Nat
deriving DecidableEq

/-- Opaque request descriptor (the data module, outside src). -/
structure DataRequest where
  id : Nat
deriving DecidableEq

/-- Opaque dispatcher error (the error module, outside src). -/
structure InterfaceError where
  code : Nat
deriving DecidableEq

/-- Opaque codec error of the cbor crate. -/
structure CborError where
  code : Nat
deriving DecidableEq

/-- One self-delimited frame on the wire: a byte sequence. -/
abbrev Frame := List Nat

/-- The opaque reversible codec of the transport: Encoder::encode writes one
frame per value, Decoder::decode turns one frame back into a value or a
CborError. -/
structure Codec (α : Type) where
  encode : α → Frame
  decode : Frame → Except CborError α

/-- OutTcpStream::send (tcp_connections.rs lines 39-42): one successful send
appends one encoded frame to the wire of the connection. -/
def send (c : Codec α) (w : List Frame) (m : α) : List Frame :=
  w ++ [c.encode m]

/-- OutTcpStream::send_all (tcp_connections.rs lines 44-57): pulls elements
from the iterator one by one and sends each; on the first failing send it
returns the offending element, the rest of the iterator and the error.  The
outcome of the i-th send call is given by the oracle f (in the source it
depends on the state of the socket).  The first component of the result is
the list of elements that were actually sent, in order. -/
def send_all (f : Nat → α → Option CborError) :
    List α → List α × Option (α × List α × CborError)
  | [] => ([], none)
  | x :: xs =>
    match f 0 x with
    | some e => ([], some (x, xs, e))
    | none =>
      let r := send_all (fun i a => f (i + 1) a) xs
      (x :: r.1, r.2)

/-- Outcome of the background decode task spawned by upgrade_reader
(tcp_connections.rs lines 137-169): the values forwarded to the In channel,
the error delivered through the channel (at most one), and whether the read
direction of the socket was shut down when the task exited. -/
structure ReaderResult (α : Type) where
  delivered : List α
  errDelivered : Option CborError
  readShutdown : Bool
deriving DecidableEq

/-- The loop body of upgrade_reader (tcp_connections.rs lines 145-163).
The frame list is what the decoder will see before EOF; cap models the
consumer of the In channel: none means the receiver stays alive, some n
means exactly n further channel sends succeed and the next one fails
(receiver dropped).  Mirrors the source: take the next decode result, break
on EOF, forward a decoded value (breaking if the channel send fails), and on
a decode error deliver the error once and break. -/
def upgrade_reader_loop (c : Codec α) :
    List Frame → Option Nat → List α × Option CborError
  | [], _ => ([], none)
  | f :: fs, cap =>
    match c.decode f with
    | .error e => ([], some e)
    | .ok a =>
      match cap with
      | some 0 => ([], none)
      | some (n + 1) =>
        let r := upgrade_reader_loop c fs (some n)
        (a :: r.1, r.2)
      | none =>
        let r := upgrade_reader_loop c fs none
        (a :: r.1, r.2)

/-- upgrade_reader (tcp_connections.rs lines 137-169): runs the decode loop
and then unconditionally shuts down the read direction (line 166), whatever
the exit reason was. -/
def upgrade_reader (c : Codec α) (fs : List Frame) (cap : Option Nat) :
    ReaderResult α :=
  ⟨(upgrade_reader_loop c fs cap).1, (upgrade_reader_loop c fs cap).2, true⟩

/-- State of the two directions of one TCP socket. -/
structure SocketState where
  readOpen : Bool
  writeOpen : Bool
deriving DecidableEq

/-- TcpStream::shutdown(Shutdown::Write): closes only the write direction. -/
def shutdownWrite (s : SocketState) : SocketState :=
  ⟨s.readOpen, false⟩

/-- TcpStream::shutdown(Shutdown::Read): closes only the read direction. -/
def shutdownRead (s : SocketState) : SocketState :=
  ⟨false, s.writeOpen⟩

/-- OutTcpStream::close (tcp_connections.rs lines 59-61): shuts down the
write direction of the shared socket. -/
def close (s : SocketState) : SocketState :=
  shutdownWrite s

/-- Drop for OutTcpStream (tcp_connections.rs lines 65-69): same shutdown of
the write direction, performed implicitly. -/
def dropOut (s : SocketState) : SocketState :=
  shutdownWrite s

/-- The In half handed out by upgrade_tcp: a handle on a socket. -/
structure InHandle where
  sock : Nat
deriving DecidableEq

/-- The Out half handed out by upgrade_tcp: a handle on a socket. -/
structure OutHandle where
  sock : Nat
deriving DecidableEq

/-- upgrade_tcp (tcp_connections.rs lines 122-127): clones the socket handle
(cloneOk is the try_clone oracle) and returns the reader and writer halves,
both referring to the same underlying socket. -/
def upgrade_tcp (cloneOk : Bool) (sock : Nat) : Option (InHandle × OutHandle) :=
  if cloneOk then some (⟨sock⟩, ⟨sock⟩) else none

/-- Oracles for listen (tcp_connections.rs lines 82-115): bind maps a port
hint to the locally bound port (none models a bind error; hint 0 asks the
operating system for an ephemeral port), cloneOk is the try_clone oracle. -/
structure BindEnv where
  bind : Nat → Option Nat
  cloneOk : Bool

/-- Result of the bind phase of listen: ok carries the port the returned
TcpListener is bound to (its local address) and the port of the cloned
listener used by the accept loop; ioErr is an Err returned through the IoResult;
panicked is the unwrap on the fallback bind failing. -/
inductive ListenOutcome where
  | ok (localPort : Nat) (acceptPort : Nat)
  | ioErr
  | panicked
deriving DecidableEq

/-- listen (tcp_connections.rs lines 82-115): binds port 5483, on failure
binds port 0 and unwraps, then clones the listener for the accept thread and
returns the receiver together with the original listener. -/
def listen (env : BindEnv) : ListenOutcome :=
  match env.bind 5483 with
  | some p => if env.cloneOk then .ok p p else .ioErr
  | none =>
    match env.bind 0 with
    | some p => if env.cloneOk then .ok p p else .ioErr
    | none => .panicked

/-- One observed outcome of TcpListener::accept in the accept loop. -/
inductive AcceptEvent where
  | conn (c : Nat × Nat)
  | timeout
  | fatal (e : Nat)
deriving DecidableEq

/-- True exactly on the fatal (non-TimedOut) accept errors. -/
def isFatal : AcceptEvent → Bool
  | .fatal _ => true
  | _ => false

/-- The connections carried by a list of accept events, in order. -/
def connsOf : List AcceptEvent → List (Nat × Nat)
  | [] => []
  | .conn c :: evs => c :: connsOf evs
  | _ :: evs => connsOf evs

/-- Trace of the accept loop: the (connection, peer address) pairs sent into
the channel, the IoError delivered through it (at most one), and whether the
loop has exited within the observed events. -/
structure AcceptResult where
  delivered : List (Nat × Nat)
  errDelivered : Option Nat
  terminated : Bool
deriving DecidableEq

/-- The accept loop spawned by listen (tcp_connections.rs lines 93-113).
cap models the consumer of the receiver as in upgrade_reader_loop (some 0
means tx.is_closed() is now true).  Mirrors the source: break when the
channel is closed, forward an accepted connection (breaking if the channel
send fails), skip a TimedOut error and continue, and on any other error
deliver it once through the channel and break.  An exhausted event list
means the loop is still blocked in accept. -/
def listen_accept_loop : Option Nat → List AcceptEvent → AcceptResult
  | some 0, _ => ⟨[], none, true⟩
  | _, [] => ⟨[], none, false⟩
  | cap, .timeout :: evs => listen_accept_loop cap evs
  | _, .fatal e :: _ => ⟨[], some e, true⟩
  | some (n + 1), .conn c :: evs =>
    let r := listen_accept_loop (some n) evs
    ⟨c :: r.delivered, r.errDelivered, r.terminated⟩
  | none, .conn c :: evs =>
    let r := listen_accept_loop none evs
    ⟨c :: r.delivered, r.errDelivered, r.terminated⟩

/-- MethodCall (node_interface.rs lines 25-40): a specific request to be
carried out by routing; exactly one variant per value. -/
inductive MethodCall where
  | Put (destination : NameType) (content : Data)
  | Get (name : NameType) (data_request : DataRequest)
  | Post (destination : NameType) (content : Data)
  | Delete (name : NameType) (data : Data)
  | Refresh (type_tag : Nat) (from_group : NameType) (payload : List Nat)
  | Forward (destination : NameType)
  | Reply (data : Data)
deriving DecidableEq

/-- Number of routing actions a MethodCall value requests: every variant
denotes one specific request (node_interface.rs line 24). -/
def actionCount : MethodCall → Nat
  | .Put _ _ => 1
  | .Get _ _ => 1
  | .Post _ _ => 1
  | .Delete _ _ => 1
  | .Refresh _ _ _ => 1
  | .Forward _ => 1
  | .Reply _ => 1

/-- Result type of Interface::handle_cache_get as declared in the source
(node_interface.rs lines 106-109): Result of MethodCall, InterfaceError. -/
def CacheGetResult : Type :=
  Except InterfaceError MethodCall

/-- Result type of Interface::handle_cache_put as declared in the source
(node_interface.rs lines 113-116): Result of MethodCall, InterfaceError. -/
def CachePutResult : Type :=
  Except InterfaceError MethodCall

/-- Result type of handle_cache_get as the specification words it: an
optional MethodCall or an InterfaceError.  Kept only to compare with the
type the source declares. -/
def CacheGetResultSpec : Type :=
  Except InterfaceError (Option MethodCall)

/-- Actions requested by a success value of the spec-shaped cache result. -/
def optActionCount : Option MethodCall → Nat
  | none => 0
  | some m => actionCount m

/-- Aggregation key of refresh payloads (node_interface.rs lines 76-79):
the (type_tag, from_group) pair. -/
abbrev RefreshKey := Nat × NameType

/-- A refresh payload: a byte vector. -/
abbrev Payload := List Nat

/-- Modelled from the spec: the Refresh Quorum Aggregator itself is not
under src (only its callee, Interface::handle_refresh, is declared in
node_interface.rs lines 76-79).  A bucket holds the ordered payloads
received for one RefreshKey plus the distinct senders seen. -/
structure RefreshBucket where
  payloads : List Payload
  senders : List NameType
deriving DecidableEq

/-- One delivered call to Interface::handle_refresh. -/
structure RefreshCall where
  type_tag : Nat
  from_group : NameType
  payloads : List Payload
deriving DecidableEq

/-- The mutable state of the aggregator: a mapping from key to bucket. -/
abbrev AggState := List (RefreshKey × RefreshBucket)

/-- Bucket currently stored for a key, if any. -/
def findBucket : AggState → RefreshKey → Option RefreshBucket
  | [], _ => none
  | kv :: rest, k => if kv.1 = k then some kv.2 else findBucket rest k

/-- Removes the bucket of a key. -/
def eraseKey : AggState → RefreshKey → AggState
  | [], _ => []
  | kv :: rest, k =>
    if kv.1 = k then eraseKey rest k else kv :: eraseKey rest k

/-- Stores a bucket under a key, replacing any previous one. -/
def setBucket (st : AggState) (k : RefreshKey) (b : RefreshBucket) : AggState :=
  (k, b) :: eraseKey st k

/-- Modelled from the spec: one inbound refresh payload is appended to the
bucket of its key (created if absent) and tagged with the identity of the sender;
a payload from an already-counted sender does not count again; when the
number of distinct senders reaches the quorum Q the payload list of the bucket is
delivered as one handle_refresh call and the bucket is removed. -/
def refreshAdd (Q : Nat) (st : AggState) (k : RefreshKey) (sender : NameType)
    (p : Payload) : AggState × Option RefreshCall :=
  let b := (findBucket st k).getD ⟨[], []⟩
  if sender ∈ b.senders then (st, none)
  else
    let b2 : RefreshBucket := ⟨b.payloads ++ [p], b.senders ++ [sender]⟩
    if Q ≤ b2.senders.length then (eraseKey st k, some ⟨k.1, k.2, b2.payloads⟩)
    else (setBucket st k b2, none)

/-- Modelled from the spec: delivers a list of (sender, payload) events for
one key to the aggregator, collecting the handle_refresh calls they
trigger. -/
def runRefresh (Q : Nat) (k : RefreshKey) :
    AggState → List (NameType × Payload) → AggState × List RefreshCall
  | st, [] => (st, [])
  | st, (s, p) :: evs =>
    match refreshAdd Q st k s p with
    | (st2, none) => runRefresh Q k st2 evs
    | (st2, some call) =>
      let r := runRefresh Q k st2 evs
      (r.1, call :: r.2)

/-- Modelled from the spec: the staleness sweep drops every bucket that
accumulated no new payload within the staleness window (isStale), without
delivering anything. -/
def staleSweep (isStale : RefreshKey → Bool) (st : AggState) :
    AggState × List RefreshCall :=
  (st.filter (fun kv => !isStale kv.1), [])

/-- A concrete symmetric codec on Nat, used to instantiate the abstract
codec on concrete runs. -/
def natCodec : Codec Nat :=
  ⟨fun n => [n],
   fun f =>
     match f with
     | [n] => Except.ok n
     | _ => Except.error ⟨0⟩⟩

theorem foldl_send_eq (c : Codec α) :
    ∀ (vs : List α) (w : List Frame),
      vs.foldl (send c) w = w ++ vs.map c.encode := by
  intro vs
  induction vs with
  | nil => intro w; simp
  | cons v vs ih => intro w; simp [send, ih]

theorem reader_loop_map_ok (c : Codec α)
    (h : ∀ a, c.decode (c.encode a) = Except.ok a) :
    ∀ vs : List α, upgrade_reader_loop c (vs.map c.encode) none = (vs, none) := by
  intro vs
  induction vs with
  | nil => rfl
  | cons v vs ih => simp [upgrade_reader_loop, h v, ih]

theorem reader_loop_map_err (c : Codec α)
    (h : ∀ a, c.decode (c.encode a) = Except.ok a)
    (bad : Frame) (rest : List Frame) (e : CborError)
    (hbad : c.decode bad = Except.error e) :
    ∀ vs : List α,
      upgrade_reader_loop c (vs.map c.encode ++ bad :: rest) none = (vs, some e) := by
  intro vs
  induction vs with
  | nil => simp [upgrade_reader_loop, hbad]
  | cons v vs ih => simp [upgrade_reader_loop, h v, ih]

theorem reader_loop_map_cap (c : Codec α)
    (h : ∀ a, c.decode (c.encode a) = Except.ok a) :
    ∀ (vs : List α) (n : Nat), n < vs.length →
      upgrade_reader_loop c (vs.map c.encode) (some n) = (vs.take n, none) := by
  intro vs
  induction vs with
  | nil => intro n hn; simp at hn
  | cons v vs ih =>
    intro n hn
    cases n with
    | zero => simp [upgrade_reader_loop, h v]
    | succ n =>
      have hn2 : n < vs.length := by simpa using hn
      simp [upgrade_reader_loop, h v, ih n hn2]

/-- Claim C1: every sequence of N values sent through successful
OutTcpStream::send calls before close() is delivered by the connected peer
InTcpStream as exactly those N values, in send order, after which the
sequence ends cleanly (no error). -/
theorem send_before_close_delivered_in_order (c : Codec α)
    (h : ∀ a, c.decode (c.encode a) = Except.ok a) (vs : List α) :
    upgrade_reader c (vs.foldl (send c) []) none = ⟨vs, none, true⟩ := by
  have hw := foldl_send_eq c vs []
  have hl := reader_loop_map_ok c h vs
  simp [upgrade_reader, hw, hl]

/-- Witness for claim C1 on a concrete run. -/
theorem send_before_close_delivered_in_order_witness :
    upgrade_reader natCodec ([3, 1, 2].foldl (send natCodec) []) none
      = ⟨[3, 1, 2], none, true⟩ :=
  send_before_close_delivered_in_order natCodec (fun a => rfl) [3, 1, 2]

theorem send_all_ok_of (f : Nat → α → Option CborError) :
    ∀ (l : List α), (∀ i : Fin l.length, f i.val (l.get i) = none) →
      send_all f l = (l, none) := by
  intro l
  induction l generalizing f with
  | nil => intro h; rfl
  | cons x xs ih =>
    intro h
    have h0 : f 0 x = none := h ⟨0, by simp⟩
    have hxs := ih (fun j a => f (j + 1) a)
      (fun i => by
        show f (i.val + 1) (xs.get i) = none
        simpa using h ⟨i.val + 1, by simp⟩)
    simp [send_all, h0, hxs]

theorem send_all_fail_at (f : Nat → α → Option CborError) :
    ∀ (l : List α) (k : Nat) (hk : k < l.length) (e : CborError),
      (∀ i : Fin l.length, i.val < k → f i.val (l.get i) = none) →
      f k (l.get ⟨k, hk⟩) = some e →
      send_all f l = (l.take k, some (l.get ⟨k, hk⟩, l.drop (k + 1), e)) := by
  intro l
  induction l generalizing f with
  | nil => intro k hk; simp at hk
  | cons x xs ih =>
    intro k hk e hbefore hfail
    cases k with
    | zero =>
      simp only [List.get] at hfail
      simp [send_all, hfail]
    | succ k =>
      have h0 : f 0 x = none := hbefore ⟨0, by simp⟩ (Nat.succ_pos k)
      have hk2 : k < xs.length := by simpa using hk
      have hfail2 : f (k + 1) (xs.get ⟨k, hk2⟩) = some e := by
        simpa using hfail
      have hxs := ih (fun j a => f (j + 1) a) k hk2 e
        (fun i hi => by
          show f (i.val + 1) (xs.get i) = none
          simpa using hbefore ⟨i.val + 1, by simp⟩
            (by show i.val + 1 < k + 1; omega))
        hfail2
      simp [send_all, h0, hxs]

/-- Claim C3: send_all sends the elements in iterator order; if all sends
succeed it returns Ok, and if the k-th send is the first to fail it returns
the k-th element, the iterator over elements k+1..N, and the error, after
the elements before k were each sent exactly once. -/
theorem send_all_spec (f : Nat → α → Option CborError) (l : List α) :
    ((∀ i : Fin l.length, f i.val (l.get i) = none) →
       send_all f l = (l, none)) ∧
    (∀ (k : Nat) (hk : k < l.length) (e : CborError),
       (∀ i : Fin l.length, i.val < k → f i.val (l.get i) = none) →
       f k (l.get ⟨k, hk⟩) = some e →
       send_all f l = (l.take k, some (l.get ⟨k, hk⟩, l.drop (k + 1), e))) :=
  ⟨send_all_ok_of f l, fun k hk e h1 h2 => send_all_fail_at f l k hk e h1 h2⟩

/-- Witness for claim C3: a run where every send succeeds, and a run where
the send of the element at index 1 fails. -/
theorem send_all_spec_witness :
    send_all (fun _ _ => (none : Option CborError)) [10, 20, 30]
      = ([10, 20, 30], none) ∧
    send_all (fun i _ => if i = 1 then some ⟨7⟩ else none) [10, 20, 30]
      = ([10], some (20, [30], ⟨7⟩)) :=
  ⟨(send_all_spec (fun _ _ => none) [10, 20, 30]).1 (fun i => rfl),
   (send_all_spec (fun i _ => if i = 1 then some ⟨7⟩ else none) [10, 20, 30]).2
     1 (by decide) ⟨7⟩ (by decide) rfl⟩

/-- Claim C4: the decode loop delivers a decode error to the In channel
exactly once and then terminates with nothing further delivered; on clean
EOF it terminates without error; and in every exit case the read direction
is shut down. -/
theorem reader_error_once (c : Codec α)
    (h : ∀ a, c.decode (c.encode a) = Except.ok a)
    (vs : List α) (bad : Frame) (rest : List Frame) (e : CborError)
    (hbad : c.decode bad = Except.error e) :
    upgrade_reader c (vs.map c.encode ++ bad :: rest) none = ⟨vs, some e, true⟩ ∧
    upgrade_reader c (vs.map c.encode) none = ⟨vs, none, true⟩ ∧
    ∀ (fs : List Frame) (cap : Option Nat),
      (upgrade_reader c fs cap).readShutdown = true := by
  refine ⟨?_, ?_, fun fs cap => rfl⟩
  · have hl := reader_loop_map_err c h bad rest e hbad vs
    simp [upgrade_reader, hl]
  · have hl := reader_loop_map_ok c h vs
    simp [upgrade_reader, hl]

/-- Witness for claim C4: one good frame, then an undecodable empty frame,
then an unread leftover frame. -/
theorem reader_error_once_witness :
    upgrade_reader natCodec ([5].map natCodec.encode ++ [] :: [[9]]) none
      = ⟨[5], some ⟨0⟩, true⟩ ∧
    upgrade_reader natCodec ([5].map natCodec.encode) none = ⟨[5], none, true⟩ ∧
    (upgrade_reader natCodec [[7]] (some 0)).readShutdown = true :=
  ⟨(reader_error_once natCodec (fun a => rfl) [5] [] [[9]] ⟨0⟩ rfl).1,
   (reader_error_once natCodec (fun a => rfl) [5] [] [[9]] ⟨0⟩ rfl).2.1,
   (reader_error_once natCodec (fun a => rfl) [5] [] [[9]] ⟨0⟩ rfl).2.2 [[7]] (some 0)⟩

/-- Claim C10: when the consumer of the In channel is gone after n received
values, the decode task observes the failed channel send on the next decoded
value, exits without delivering anything further (no value, no error), and
shuts down the read direction. -/
theorem reader_consumer_gone (c : Codec α)
    (h : ∀ a, c.decode (c.encode a) = Except.ok a)
    (vs : List α) (n : Nat) (hn : n < vs.length) :
    upgrade_reader c (vs.map c.encode) (some n) = ⟨vs.take n, none, true⟩ := by
  have hl := reader_loop_map_cap c h vs n hn
  simp [upgrade_reader, hl]

/-- Witness for claim C10: the consumer accepts one value out of three. -/
theorem reader_consumer_gone_witness :
    upgrade_reader natCodec ([4, 5, 6].map natCodec.encode) (some 1)
      = ⟨[4], none, true⟩ :=
  reader_consumer_gone natCodec (fun a => rfl) [4, 5, 6] 1 (by decide)

/-- Claim C5: the In and Out halves of an upgraded connection share one
socket but have independent lifecycles: close (and the implicit close on
drop) shuts down only the write direction, is idempotent, and shutting one
direction never closes the other. -/
theorem half_close_independence (s : SocketState) (sock : Nat) :
    (close s).readOpen = s.readOpen ∧
    (dropOut s).readOpen = s.readOpen ∧
    close (close s) = close s ∧
    dropOut (close s) = close s ∧
    (shutdownRead s).writeOpen = s.writeOpen ∧
    (close s).writeOpen = false ∧
    upgrade_tcp true sock = some (⟨sock⟩, ⟨sock⟩) := by
  simp [close, dropOut, shutdownWrite, shutdownRead, upgrade_tcp]

/-- Claim C6: listen first tries the designated port 5483; when that bind
fails it binds an ephemeral port chosen by the operating system, the
local address of the returned listener is the actually bound fallback port, and
the accept loop runs on a clone of that same listener. -/
theorem listen_fallback_port (env : BindEnv) (p : Nat)
    (h1 : env.bind 5483 = none) (h2 : env.bind 0 = some p)
    (h3 : env.cloneOk = true) :
    listen env = .ok p p := by
  simp [listen, h1, h2, h3]

/-- Witness for claim C6: the designated port is taken, the operating system
hands out port 49152. -/
theorem listen_fallback_port_witness :
    listen ⟨fun n => if n = 0 then some 49152 else none, true⟩
      = .ok 49152 49152 :=
  listen_fallback_port ⟨fun n => if n = 0 then some 49152 else none, true⟩
    49152 rfl rfl rfl

/-- Claim C9: when the bind of port 5483 fails and the fallback bind of an
ephemeral port also fails, listen panics on the unwrap of the fallback bind
instead of returning the failure through its IoResult return type. -/
theorem listen_double_bind_failure_panics (env : BindEnv)
    (h1 : env.bind 5483 = none) (h2 : env.bind 0 = none) :
    listen env = .panicked := by
  simp [listen, h1, h2]

/-- Witness for claim C9: every bind fails. -/
theorem listen_double_bind_failure_panics_witness :
    listen ⟨fun _ => none, true⟩ = .panicked :=
  listen_double_bind_failure_panics ⟨fun _ => none, true⟩ rfl rfl

theorem accept_loop_fatal :
    ∀ (es1 : List AcceptEvent) (e : Nat) (es2 : List AcceptEvent),
      (∀ ev ∈ es1, isFatal ev = false) →
      listen_accept_loop none (es1 ++ .fatal e :: es2)
        = ⟨connsOf es1, some e, true⟩ := by
  intro es1
  induction es1 with
  | nil => intro e es2 _; rfl
  | cons ev es ih =>
    intro e es2 h
    have hev : isFatal ev = false := h ev (by simp)
    have hrest : ∀ x ∈ es, isFatal x = false :=
      fun x hx => h x (by simp [hx])
    cases ev with
    | conn c => simp [listen_accept_loop, connsOf, ih e es2 hrest]
    | timeout => simp [listen_accept_loop, connsOf, ih e es2 hrest]
    | fatal e2 => simp [isFatal] at hev

/-- Claim C7: in the accept loop, TimedOut accept errors are skipped and
accepting continues; the first other accept error is delivered into the
sequence exactly once and the loop terminates, and nothing that comes after
it is ever delivered. -/
theorem accept_loop_error_terminates (es1 : List AcceptEvent) (e : Nat)
    (es2 : List AcceptEvent) (h : ∀ ev ∈ es1, isFatal ev = false) :
    listen_accept_loop none (es1 ++ .fatal e :: es2)
      = ⟨connsOf es1, some e, true⟩ :=
  accept_loop_fatal es1 e es2 h

/-- Witness for claim C7: two connections around a timeout, then a fatal
error, then further events that are never delivered. -/
theorem accept_loop_error_terminates_witness :
    listen_accept_loop none
      [.conn (1, 2), .timeout, .conn (3, 4), .fatal 11, .conn (5, 6), .fatal 12]
      = ⟨[(1, 2), (3, 4)], some 11, true⟩ :=
  accept_loop_error_terminates [.conn (1, 2), .timeout, .conn (3, 4)] 11
    [.conn (5, 6), .fatal 12] (by decide)

theorem refreshAdd_empty_state (Q : Nat) (k : RefreshKey) (s : NameType)
    (p : Payload) :
    refreshAdd Q [] k s p = refreshAdd Q [(k, ⟨[], []⟩)] k s p := by
  simp [refreshAdd, findBucket, eraseKey, setBucket]

theorem refresh_run_reaches (Q : Nat) (k : RefreshKey) :
    ∀ (evs : List (NameType × Payload)) (b : RefreshBucket),
      b.senders.length + evs.length = Q →
      evs ≠ [] →
      (∀ s ∈ evs.map Prod.fst, s ∉ b.senders) →
      (evs.map Prod.fst).Nodup →
      runRefresh Q k [(k, b)] evs
        = ([], [⟨k.1, k.2, b.payloads ++ evs.map Prod.snd⟩]) := by
  intro evs
  induction evs with
  | nil => intro b _ hne _ _; exact absurd rfl hne
  | cons ev evs ih =>
    intro b hlen _ hfresh hnd
    obtain ⟨s, p⟩ := ev
    have hs : s ∉ b.senders := hfresh s (by simp)
    cases evs with
    | nil =>
      have hQ : Q = b.senders.length + 1 := by
        simpa using hlen.symm
      simp [runRefresh, refreshAdd, findBucket, eraseKey, hs, hQ]
    | cons ev2 evs2 =>
      have hlt : ¬ Q ≤ b.senders.length + 1 := by
        simp only [List.length_cons] at hlen
        omega
      have hfresh2 : ∀ x ∈ (ev2 :: evs2).map Prod.fst,
          x ∉ b.senders ++ [s] := by
        intro x hx
        simp only [List.mem_append, List.mem_singleton]
        push_neg
        refine ⟨hfresh x (by simp [List.mem_cons]; right; simpa using hx), ?_⟩
        intro hxs
        have := hnd
        simp only [List.map_cons, List.nodup_cons] at this
        exact this.1 (hxs ▸ hx)
      have hnd2 : ((ev2 :: evs2).map Prod.fst).Nodup := by
        simp only [List.map_cons, List.nodup_cons] at hnd
        simpa using hnd.2
      have hlen2 : (RefreshBucket.mk (b.payloads ++ [p]) (b.senders ++ [s])).senders.length
          + (ev2 :: evs2).length = Q := by
        show (b.senders ++ [s]).length + (ev2 :: evs2).length = Q
        simp only [List.length_append, List.length_cons, List.length_nil] at hlen ⊢
        omega
      have hrec := ih (⟨b.payloads ++ [p], b.senders ++ [s]⟩ : RefreshBucket)
        hlen2 (by simp) hfresh2 hnd2
      have hstep : runRefresh Q k [(k, b)] ((s, p) :: ev2 :: evs2)
          = runRefresh Q k [(k, ⟨b.payloads ++ [p], b.senders ++ [s]⟩)]
              (ev2 :: evs2) := by
        simp [runRefresh, refreshAdd, findBucket, setBucket, eraseKey, hs, hlt]
      rw [hstep, hrec]
      simp

/-- Claim C2: with quorum Q, Q payloads from Q distinct senders for one
(type_tag, from_group) key trigger exactly one handle_refresh call carrying
all Q payloads and the bucket is removed; a stale bucket holding Q-1
payloads is dropped by the staleness sweep with zero handle_refresh calls;
and a payload from an already-counted sender leaves the bucket, and hence
the distinct-sender count, unchanged. -/
theorem refresh_quorum_aggregator (Q : Nat) (k : RefreshKey)
    (evs : List (NameType × Payload)) (b : RefreshBucket) (s : NameType)
    (p : Payload) (isStale : RefreshKey → Bool)
    (hQ : evs.length = Q) (hne : evs ≠ [])
    (hnd : (evs.map Prod.fst).Nodup)
    (hstale : isStale k = true)
    (hb : b.payloads.length + 1 = Q)
    (hs : s ∈ b.senders) :
    runRefresh Q k [] evs = ([], [⟨k.1, k.2, evs.map Prod.snd⟩]) ∧
    staleSweep isStale [(k, b)] = ([], []) ∧
    refreshAdd Q [(k, b)] k s p = ([(k, b)], none) := by
  refine ⟨?_, ?_, ?_⟩
  · cases evs with
    | nil => exact absurd rfl hne
    | cons ev evs2 =>
      have hstep : runRefresh Q k [] (ev :: evs2)
          = runRefresh Q k [(k, (⟨[], []⟩ : RefreshBucket))] (ev :: evs2) := by
        obtain ⟨s2, p2⟩ := ev
        simp only [runRefresh, refreshAdd_empty_state]
      rw [hstep]
      have := refresh_run_reaches Q k (ev :: evs2) ⟨[], []⟩
        (by simpa using hQ) (by simp) (by simp) hnd
      simpa using this
  · simp [staleSweep, hstale]
  · simp [refreshAdd, findBucket, hs]

/-- Witness for claim C2: quorum 2, two distinct senders, a stale one-payload
bucket, and a duplicate sender. -/
theorem refresh_quorum_aggregator_witness :
    runRefresh 2 (9, ⟨3⟩) [] [(⟨1⟩, [10]), (⟨2⟩, [20])]
      = ([], [⟨9, ⟨3⟩, [[10], [20]]⟩]) ∧
    staleSweep (fun _ => true) [((9, ⟨3⟩), ⟨[[10]], [⟨1⟩]⟩)] = ([], []) ∧
    refreshAdd 2 [((9, ⟨3⟩), ⟨[[10]], [⟨1⟩]⟩)] (9, ⟨3⟩) ⟨1⟩ [30]
      = ([((9, ⟨3⟩), ⟨[[10]], [⟨1⟩]⟩)], none) :=
  refresh_quorum_aggregator 2 (9, ⟨3⟩) [(⟨1⟩, [10]), (⟨2⟩, [20])]
    ⟨[[10]], [⟨1⟩]⟩ ⟨1⟩ [30] (fun _ => true)
    rfl (by decide) (by decide) rfl rfl (by decide)

/-- Claim C8, counterexample: in the source, handle_cache_get returns
Result of MethodCall and InterfaceError, and no success value of that type
is a no-action result — every MethodCall requests an action — so the
absence of a cache hit is not representable as a normal no-action success. -/
theorem cache_miss_no_action_unrepresentable :
    ¬ ∃ r : CacheGetResult, ∃ m : MethodCall,
        r = Except.ok m ∧ actionCount m = 0 := by
  rintro ⟨r, m, _, hm⟩
  cases m <;> simp [actionCount] at hm

/-- Claim C8, amended: handle_cache_get and handle_cache_put both return a
MethodCall or an InterfaceError; every success value requests exactly one
action, so a cache miss has to be reported through the InterfaceError
branch, unlike the spec-shaped optional result whose success value none
requests zero actions. -/
theorem cache_result_types :
    (∀ r : CacheGetResult,
       (∃ m, r = Except.ok m ∧ actionCount m = 1) ∨
       ∃ err, r = Except.error err) ∧
    (∀ r : CachePutResult,
       (∃ m, r = Except.ok m ∧ actionCount m = 1) ∨
       ∃ err, r = Except.error err) ∧
    optActionCount none = 0 := by
  refine ⟨?_, ?_, rfl⟩ <;>
    · intro r
      cases r with
      | ok m => exact Or.inl ⟨m, rfl, by cases m <;> rfl⟩
      | error err => exact Or.inr ⟨err, rfl⟩

end Routing
